import Mathlib

/-!
Verification development for the git-passport repository.

The definitions below are a shallow embedding of the Python sources:
  * `src/passport/case.py`            (candidate selection, active identity)
  * `src/passport/configuration.py`   (config validation and loading, global id)
  * `src/passport/config.py`          (older config validation / loading variant)
  * `src/passport/dialog.py`          (interactive chooser)
  * `src/gitpassport.py`              (the `__main__` glue and its embedded copies)

Modelling conventions:
  * Python dicts with string keys are association lists preserving insertion
    order (`Dict`); assignment `d[k] = v` overwrites in place or appends
    (`dict_set`), exactly as a Python dict does.
  * The passport store `config["git_passports"]` (an int-keyed dict) is a
    `Store`; `store_set` mirrors `target[position] = ...`.
  * Subprocess calls to git are replaced by explicit inputs (exit statuses,
    the strings git would report) and an `Event` trace recording the prints
    and the local-config mutations the run performs.  The literal rendering
    of messages (textwrap.dedent etc.) is not modelled; each print site is an
    `Event` constructor carrying the data formatted into the message.
  * Uncaught Python exceptions are `Option.none` results.
  * `time.sleep` and terminal/file handling are not modelled.
  * Python `set` iteration order is unspecified; the reported collections of
    the validators are modelled as `List.dedup` of the generated lists, and
    theorems about them only use membership.
  * String predicates (`int()`, `float()`, `str.lower`, `\s`, `[0-9]`) are
    modelled on ASCII; the unicode extensions Python adds are out of scope.
-/

namespace GitPassport

/-- A Python value stored in a passport dict: either a string (config values)
or a bool (the coerced `no_remote` field added by `configuration.release`). -/
inductive PyVal where
  | str (s : String)
  | bool (b : Bool)
deriving DecidableEq, Repr

/-- A Python dict with string keys, as an insertion-ordered association list. -/
abbrev Dict := List (String × PyVal)

/-- `d.get(key)`: first binding of `key`, `none` when absent. -/
def dict_get : Dict → String → Option PyVal
  | [], _ => none
  | (k, v) :: rest, key => if k = key then some v else dict_get rest key

/-- `d[key] = v`: overwrite in place when the key exists, append otherwise. -/
def dict_set : Dict → String → PyVal → Dict
  | [], key, v => [(key, v)]
  | (k, w) :: rest, key, v =>
      if k = key then (k, v) :: rest else (k, w) :: dict_set rest key v

/-- The int-keyed dict `config["git_passports"]` / a candidate mapping. -/
abbrev Store := List (Nat × Dict)

/-- `target[position]` lookup on an int-keyed dict. -/
def store_get : Store → Nat → Option Dict
  | [], _ => none
  | (k, d) :: rest, key => if k = key then some d else store_get rest key

/-- `target[position] = d`: overwrite in place or append, like a Python dict. -/
def store_set : Store → Nat → Dict → Store
  | [], key, d => [(key, d)]
  | (k, d0) :: rest, key, d =>
      if k = key then (k, d) :: rest else (k, d0) :: store_set rest key d

/-- `candidates[selected_id]` where the chooser returned a Python int. -/
def store_get_int (s : Store) (i : Int) : Option Dict :=
  match s.find? (fun kv => ((kv.1 : Int) == i)) with
  | some kv => some kv.2
  | none => none

/-- The six ASCII characters Python's `\s` (and `str.strip()` on ASCII) cover. -/
def py_space (c : Char) : Bool :=
  c = ' ' || c = '\t' || c = '\n' || c = '\r' || c = '\x0b' || c = '\x0c'

/-- Strip leading and trailing whitespace, as `int()`/`float()` do. -/
def strip_py (cs : List Char) : List Char :=
  ((cs.dropWhile py_space).reverse.dropWhile py_space).reverse

/-- Digits of a Python int literal after the first: `(('_')? [0-9])*`,
accumulating the value; underscores must sit between digits. -/
def digits_core : Nat → List Char → Option Nat
  | acc, [] => some acc
  | acc, '_' :: c :: rest =>
      if c.isDigit then digits_core (acc * 10 + (c.toNat - 48)) rest else none
  | _, ['_'] => none
  | acc, c :: rest =>
      if c.isDigit then digits_core (acc * 10 + (c.toNat - 48)) rest else none

/-- `[0-9] (('_')? [0-9])*`, consuming the whole list. -/
def py_digits : List Char → Option Nat
  | [] => none
  | c :: rest => if c.isDigit then digits_core (c.toNat - 48) rest else none

/-- Python `int(s)`: optional surrounding whitespace, optional sign, decimal
digits with single underscores between digits; `none` models `ValueError`. -/
def py_int (s : String) : Option Int :=
  match strip_py s.toList with
  | '+' :: r => (py_digits r).map (fun n => (n : Int))
  | '-' :: r => (py_digits r).map (fun n => -(n : Int))
  | r => (py_digits r).map (fun n => (n : Int))

/-- `configparser` boolean coercion: `BOOLEAN_STATES[value.lower()]`,
`none` models the `ValueError` raised for unrecognised values. -/
def py_getboolean (s : String) : Option Bool :=
  let t := (s.toList.map Char.toLower).asString
  if t = "1" ∨ t = "yes" ∨ t = "true" ∨ t = "on" then some true
  else if t = "0" ∨ t = "no" ∨ t = "false" ∨ t = "off" then some false
  else none

/-- Consume `(('_')? [0-9])*` and return the remainder. -/
def digits_rest : List Char → List Char
  | '_' :: c :: rest => if c.isDigit then digits_rest rest else '_' :: c :: rest
  | c :: rest => if c.isDigit then digits_rest rest else c :: rest
  | [] => []

/-- Consume `[0-9] (('_')? [0-9])*`; `none` when no leading digit. -/
def take_digits : List Char → Option (List Char)
  | [] => none
  | c :: rest => if c.isDigit then some (digits_rest rest) else none

/-- A full digit group and nothing after it. -/
def expo_digits_ok (cs : List Char) : Bool :=
  match take_digits cs with
  | some [] => true
  | _ => false

/-- Optional exponent part of a float literal: `([eE] [+-]? digits)?`. -/
def expo_ok : List Char → Bool
  | [] => true
  | 'e' :: '+' :: r => expo_digits_ok r
  | 'e' :: '-' :: r => expo_digits_ok r
  | 'e' :: r => expo_digits_ok r
  | 'E' :: '+' :: r => expo_digits_ok r
  | 'E' :: '-' :: r => expo_digits_ok r
  | 'E' :: r => expo_digits_ok r
  | _ => false

/-- After the decimal point: optional digits, then the optional exponent. -/
def frac_expo_ok (cs : List Char) : Bool :=
  match take_digits cs with
  | some r => expo_ok r
  | none => expo_ok cs

/-- Mantissa and exponent of a float literal (sign already removed). -/
def float_body_ok (t : List Char) : Bool :=
  match take_digits t with
  | some ('.' :: r2) => frac_expo_ok r2
  | some r => expo_ok r
  | none =>
    match t with
    | '.' :: r2 =>
      match take_digits r2 with
      | some r3 => expo_ok r3
      | none => false
    | _ => false

/-- Python `float(s)` accepts `s`: whitespace, sign, then `inf`/`infinity`/
`nan` (any case) or a decimal mantissa with optional exponent. -/
def py_float_ok (s : String) : Bool :=
  let t := strip_py s.toList
  let t2 := match t with
    | '+' :: r => r
    | '-' :: r => r
    | r => r
  let tl := t2.map Char.toLower
  if tl = ['i', 'n', 'f'] ∨ tl = "infinity".toList ∨ tl = ['n', 'a', 'n'] then true
  else float_body_ok t2

/-- Tail of the email pattern: a literal `.` followed by one non-`@` char. -/
def dot_tail : List Char → Bool
  | '.' :: c :: _ => c != '@'
  | _ => false

/-- `[^@]+ \. [^@]+` matched as a prefix (regex backtracking as existence of a
split point). -/
def domain_match : List Char → Bool
  | [] => false
  | c :: rest => c != '@' && (dot_tail rest || domain_match rest)

/-- A literal `@` followed by the domain pattern. -/
def at_tail : List Char → Bool
  | '@' :: rest => domain_match rest
  | _ => false

/-- `re.match` of `[^@]+@[^@]+\.[^@]+`: the pattern anchored at the start, an
arbitrary tail may follow. -/
def local_at_match : List Char → Bool
  | [] => false
  | c :: rest => c != '@' && (at_tail rest || local_at_match rest)

/-- `re.match(r"[^@]+@[^@]+\.[^@]+", email)` as a Bool. -/
def email_match (s : String) : Bool :=
  local_at_match s.toList

/-- `re.match(r"^(passport)\s[0-9]+$", name)`: the literal word `passport`,
one whitespace character, one or more digits.  (The `$` of the source also
accepts a trailing newline, which a configparser section name cannot
contain.) -/
def is_passport_section (name : String) : Bool :=
  match name.toList with
  | 'p' :: 'a' :: 's' :: 's' :: 'p' :: 'o' :: 'r' :: 't' :: c :: rest =>
      py_space c && !rest.isEmpty && rest.all Char.isDigit
  | _ => false

/-- Index of the first `:`, as `url.find(":")`. -/
def find_colon_idx : List Char → Option Nat
  | [] => none
  | c :: rest => if c = ':' then some 0 else (find_colon_idx rest).map (· + 1)

/-- `urllib.parse` scheme characters: letters, digits, `+`, `-`, `.`. -/
def scheme_char (c : Char) : Bool :=
  c.isAlpha || c.isDigit || c = '+' || c = '-' || c = '.'

/-- Remove a leading `scheme:` when the part before the first colon is a
non-empty run of scheme characters (urlsplit's scheme step). -/
def split_scheme (cs : List Char) : List Char :=
  match find_colon_idx cs with
  | some i => if 0 < i ∧ (cs.take i).all scheme_char then cs.drop (i + 1) else cs
  | none => cs

/-- `urllib.parse.urlparse(url)[1]`: the netloc component — after the scheme,
a leading `//` introduces the netloc, which runs until `/`, `?` or `#`;
otherwise the netloc is empty.  (urlsplit's IPv6-bracket `ValueError` is not
modelled.) -/
def netloc (url : String) : String :=
  match split_scheme url.toList with
  | '/' :: '/' :: r => (r.takeWhile (fun c => c != '/' && c != '?' && c != '#')).asString
  | _ => ""

/-- One observable step of a run: a print site (with the data formatted into
the message) or a git-config mutation of the repository's local config. -/
inductive Event where
  | preset_created
  | invalid_sections (names : List String)
  | invalid_options (names : List String)
  | invalid_emails (emails : List String)
  | invalid_value (option_name value : String)
  | invalid_enable_hook
  | invalid_sleep_duration
  | not_repo
  | disabled
  | matched_url (url : String)
  | zero_match (url : String)
  | no_url
  | no_global_note
  | active_passport (name email url : String)
  | no_passport
  | removed_msg
  | not_set_msg
  | git_remove
  | git_set (property value : String)
deriving DecidableEq, Repr

/-- Events that mutate the repository's local git configuration. -/
def Event.is_git_mutation : Event → Bool
  | .git_set _ _ => true
  | .git_remove => true
  | _ => false

/-- `case.url_exists.gen_candidates`: keep the ids whose
`value.get("service") == url` (exact, case-sensitive string equality; a
missing `service` never matches, nothing else is consulted). -/
def gen_candidates (ids : Store) (url : String) : Store :=
  ids.filter (fun kv =>
    match dict_get kv.2 "service" with
    | some (.str s) => s = url
    | _ => false)

/-- The dict `add_global_id` builds for the global git identity. -/
def global_id_dict (global_email global_name : String) : Dict :=
  [("email", .str global_email), ("name", .str global_name),
   ("flag", .str "global")]

/-- Result of `configuration.add_global_id`: the (mutated) target dict, the
prints, and the boolean return value. -/
structure AddGlobalOut where
  target : Store
  events : List Event
  ok : Bool
deriving DecidableEq, Repr

/-- `configuration.add_global_id(config, target)`: when both global fields
are non-empty (Python truthiness) insert the global id at
`len(config["git_passports"])`, otherwise print the note and add nothing. -/
def add_global_id (global_email global_name : String)
    (local_passports target : Store) : AddGlobalOut :=
  if global_email ≠ "" ∧ global_name ≠ "" then
    { target := store_set target local_passports.length
        (global_id_dict global_email global_name),
      events := [], ok := true }
  else
    { target := target, events := [Event.no_global_note], ok := false }

/-- Result of a selection entry point: the returned candidates, the value of
`config["git_passports"]` after the call (the fallback branches alias the
store, so `add_global_id`'s in-place insertion is visible there), and the
prints.  (`dialog.print_choice`'s rendering is not modelled.) -/
structure SelOut where
  candidates : Store
  git_passports : Store
  events : List Event
deriving DecidableEq, Repr

/-- `case.url_exists(config, url)`: match the store against the URL's netloc;
a non-empty match is returned as-is, otherwise `candidates` aliases the full
store and the global id is added to it. -/
def url_exists (global_email global_name : String)
    (git_passports : Store) (url : String) : SelOut :=
  let local_passports := git_passports
  let candidates := gen_candidates local_passports (netloc url)
  if 1 ≤ candidates.length then
    { candidates := candidates, git_passports := local_passports,
      events := [Event.matched_url url] }
  else
    let g := add_global_id global_email global_name local_passports local_passports
    { candidates := g.target, git_passports := g.target,
      events := Event.zero_match url :: g.events }

/-- `case.no_url_exists(config)`: `candidates` aliases the full store and the
global id is added to it. -/
def no_url_exists (global_email global_name : String)
    (git_passports : Store) : SelOut :=
  let g := add_global_id global_email global_name git_passports git_passports
  { candidates := g.target, git_passports := g.target,
    events := Event.no_url :: g.events }

/-- `case.active_identity(config, email, name, url)`: display the active
passport when both fields are non-empty, else report none (return False).
The `sleep_duration` pause and the compact/plain styling are not modelled. -/
def active_identity (email name url : String) : Bool × List Event :=
  let url2 := if url = "" then "Not set" else url
  if email ≠ "" ∧ name ≠ "" then
    (true, [Event.active_passport name email url2])
  else
    (false, [Event.no_passport])

/-- `dialog.get_input(pool)` over an explicit list of terminal lines:
an int in the pool is returned, `q`/`quit` yields `some none`, anything else
re-prompts; `none` models running out of input (the real loop would block). -/
def get_input (pool : List Int) : List String → Option (Option Int)
  | [] => none
  | s :: rest =>
    match py_int s with
    | some n => if n ∈ pool then some (some n) else get_input pool rest
    | none => if s = "q" ∨ s = "quit" then some none else get_input pool rest

/-- A configuration file as configparser exposes it: the sections in file
order, each with its options in file order.  Option keys are already
lower-cased and values whitespace-stripped by configparser; the `DEFAULT`
section mechanism is not modelled. -/
abbrev IniFile := List (String × List (String × String))

/-- `raw_config.get(section, key)` modulo the section object: first matching
section, first matching option; `none` models `NoSectionError`/
`NoOptionError`. -/
def sec_get (file : IniFile) (sec key : String) : Option String :=
  (file.lookup sec).bind (fun opts => opts.lookup key)

/-- `config_validate_values.filter_email` of `src/gitpassport.py` (and
`config.py`): the emails of passport sections failing the pattern, in file
order; `none` models the uncaught `NoOptionError` when a passport section
has no `email` option. -/
def filter_email : IniFile → Option (List String)
  | [] => some []
  | (name, opts) :: rest =>
    if is_passport_section name then
      match opts.lookup "email" with
      | none => none
      | some em =>
        match filter_email rest with
        | none => none
        | some l => some (if email_match em then l else em :: l)
    else filter_email rest

/-- The shared tail of both value validators: `enable_hook` must coerce to a
boolean and `sleep_duration` to a float; missing section/option is an
uncaught error (`none`), a bad value prints and returns False. -/
def check_general (file : IniFile) : Option (Bool × List Event) :=
  match sec_get file "general" "enable_hook" with
  | none => none
  | some v =>
    match py_getboolean v with
    | none => some (false, [Event.invalid_enable_hook])
    | some _ =>
      match sec_get file "general" "sleep_duration" with
      | none => none
      | some w =>
        if py_float_ok w then some (true, [])
        else some (false, [Event.invalid_sleep_duration])

/-- `config_validate_values(filename)` of `src/gitpassport.py` (identical in
`src/passport/config.py`): collect the set of invalid emails, reject listing
all of them, then check the two `general` values. -/
def config_validate_values (file : IniFile) : Option (Bool × List Event) :=
  match filter_email file with
  | none => none
  | some l =>
    let false_email := l.dedup
    if false_email ≠ [] then some (false, [Event.invalid_emails false_email])
    else check_general file

/-- `validate_values.filter_section` of `src/passport/configuration.py`: per
passport section, a bad email yields `("email address", email)` and an
unparsable `no_remote` yields `("no_remote", value)`; a missing email is an
uncaught `NoOptionError` (`none`). -/
def filter_section : IniFile → Option (List (String × String))
  | [] => some []
  | (name, opts) :: rest =>
    if is_passport_section name then
      match opts.lookup "email" with
      | none => none
      | some em =>
        let here :=
          (if email_match em then [] else [("email address", em)]) ++
          (match opts.lookup "no_remote" with
           | none => []
           | some v =>
             match py_getboolean v with
             | some _ => []
             | none => [("no_remote", v)])
        (filter_section rest).map (fun l => here ++ l)
    else filter_section rest

/-- `validate_values(filename)` of `src/passport/configuration.py`: the loop
over `filter_section` prints the FIRST offending entry and returns False
immediately; only when no entry is produced are the `general` values
checked. -/
def validate_values (file : IniFile) : Option (Bool × List Event) :=
  match filter_section file with
  | none => none
  | some [] => check_general file
  | some ((n, v) :: _) => some (false, [Event.invalid_value n v])

/-- Section whitelist of `config_validate_scheme` (`src/gitpassport.py`). -/
def whitelist_sections : List String := ["general", "passport"]

/-- Option whitelist of `config_validate_scheme` (`src/gitpassport.py`; the
`passport` package variant additionally whitelists `no_remote`). -/
def whitelist_options : List String :=
  ["email", "enable_hook", "name", "service", "sleep_duration"]

/-- `config_validate_scheme(filename)` of `src/gitpassport.py`: reject on any
section name outside the whitelist and the passport pattern, then on any
option name outside the option whitelist. -/
def config_validate_scheme (file : IniFile) : Bool × List Event :=
  let false_sections :=
    ((file.map Prod.fst).filter
      (fun s => !whitelist_sections.contains s && !is_passport_section s)).dedup
  let false_options :=
    (((file.map (fun s => s.2.map Prod.fst)).flatten).filter
      (fun o => !whitelist_options.contains o)).dedup
  if false_sections ≠ [] then (false, [Event.invalid_sections false_sections])
  else if false_options ≠ [] then (false, [Event.invalid_options false_options])
  else (true, [])

/-- The released configuration: `enable_hook` and the store.  The
`sleep_duration` float is validated on load but its value (used only for
`time.sleep`) is not carried. -/
structure Config where
  enable_hook : Bool
  git_passports : Store
deriving DecidableEq, Repr

/-- `dict(section)`: the section's options as a Python dict of strings. -/
def to_dict (opts : List (String × String)) : Dict :=
  opts.map (fun kv => (kv.1, PyVal.str kv.2))

/-- `config_release.passport` of `src/gitpassport.py` (and `config.py`): the
passport sections, in order, as plain dicts. -/
def passports_g (file : IniFile) : List Dict :=
  (file.filter (fun s => is_passport_section s.1)).map (fun s => to_dict s.2)

/-- `config_release(filename)` of `src/gitpassport.py` (and `config.py`):
coerce the two `general` values (uncaught errors on failure), then key the
passport dicts by `dict(enumerate(...))`. -/
def config_release (file : IniFile) : Option Config :=
  match sec_get file "general" "enable_hook" with
  | none => none
  | some v =>
    match py_getboolean v with
    | none => none
    | some b =>
      match sec_get file "general" "sleep_duration" with
      | none => none
      | some w =>
        if py_float_ok w then
          some { enable_hook := b, git_passports := (passports_g file).enum }
        else none

/-- `release.passport`'s body for one section
(`src/passport/configuration.py`): `d = dict(section)` followed by
`d["no_remote"] = section.getboolean("no_remote", fallback=False)`; an
unparsable `no_remote` raises (`none`). -/
def passport_no_remote (opts : List (String × String)) : Option Dict :=
  let d := to_dict opts
  match opts.lookup "no_remote" with
  | none => some (dict_set d "no_remote" (.bool false))
  | some v => (py_getboolean v).map (fun b => dict_set d "no_remote" (.bool b))

/-- `release.passport` of `src/passport/configuration.py`: the passport
sections, in order, with the coerced `no_remote` field. -/
def passports_conf : IniFile → Option (List Dict)
  | [] => some []
  | (name, opts) :: rest =>
    if is_passport_section name then
      match passport_no_remote opts with
      | none => none
      | some d => (passports_conf rest).map (fun l => d :: l)
    else passports_conf rest

/-- `release(filename)` of `src/passport/configuration.py`. -/
def release (file : IniFile) : Option Config :=
  match sec_get file "general" "enable_hook" with
  | none => none
  | some v =>
    match py_getboolean v with
    | none => none
    | some b =>
      match sec_get file "general" "sleep_duration" with
      | none => none
      | some w =>
        if py_float_ok w then
          (passports_conf file).map
            (fun ds => { enable_hook := b, git_passports := ds.enum })
        else none

/-- The mutually exclusive command-line flags of `args_release`
(`argparse` guarantees at most one is present). -/
inductive Args where
  | noflag
  | select
  | delete
  | active
  | passports
deriving DecidableEq, Repr

/-- The external state one run of `src/gitpassport.py` observes: whether the
config file exists, its parsed content, the exit statuses of the two
status-carrying git calls, the strings `git config --get` reports (empty =
unset), the parsed flags, and the terminal lines the chooser reads. -/
structure MainIn where
  preset_exists : Bool
  file : IniFile
  git_status : Nat
  remove_status : Nat
  local_email : String
  local_name : String
  local_url : String
  global_email : String
  global_name : String
  args : Args
  inputs : List String
deriving Repr

/-- `git_infected()`: exit status 0 is True, 128 prints and is False, any
other status falls off the function (Python `None`). -/
def git_infected (status : Nat) : Option Bool × List Event :=
  if status = 0 then (some true, [])
  else if status = 128 then (some false, [Event.not_repo])
  else (none, [])

/-- Python truthiness of `git_infected`'s result (`None` is falsy). -/
def truthy_opt_bool : Option Bool → Bool
  | some b => b
  | none => false

/-- `git_config_remove(verbose)`: the removal subprocess always runs; in
verbose mode a status other than 0 or 128 leaves `msg` unbound and raises
(`none`). -/
def git_config_remove (status : Nat) (verbose : Bool) : Option (List Event) :=
  if verbose then
    if status = 0 then some [Event.git_remove, Event.removed_msg]
    else if status = 128 then some [Event.git_remove, Event.not_set_msg]
    else none
  else some [Event.git_remove]

/-- The selection entry point the main flow picks:
`url_exists(config, local_url)` when the remote URL is set, else
`no_url_exists(config)`. -/
def flow_sel (e : MainIn) (config : Config) : SelOut :=
  if e.local_url ≠ "" then
    url_exists e.global_email e.global_name config.git_passports e.local_url
  else
    no_url_exists e.global_email e.global_name config.git_passports

/-- The candidate keys handed to `get_user_input` (`candidates.keys()`). -/
def keys_int (s : Store) : List Int :=
  s.map (fun kv => (kv.1 : Int))

/-- The tail of the main flow after the flag/active checks: select
candidates, prompt, and on a concrete id set both fields locally; a quit
falls off the script (exit 0, nothing set).  `none` models running out of
terminal input or the `KeyError`/`TypeError` of a candidate without string
`email`/`name` values. -/
def select_flow (e : MainIn) (config : Config) (ev : List Event) :
    Option (Nat × List Event) :=
  let sel := flow_sel e config
  let ev2 := ev ++ sel.events
  match get_input (keys_int sel.candidates) e.inputs with
  | none => none
  | some none => some (0, ev2)
  | some (some id) =>
    match store_get_int sel.candidates id with
    | none => none
    | some d =>
      match dict_get d "email", dict_get d "name" with
      | some (.str em), some (.str nm) =>
          some (0, ev2 ++ [Event.git_set "email" em, Event.git_set "name" nm])
      | _, _ => none

/-- The `__main__` glue of `src/gitpassport.py`: bootstrap and validation
checks (short-circuited, exit 1 on the first failure), release, the disabled
gate, the flag dispatch, the already-set display, and the selection flow. -/
def main_run (e : MainIn) : Option (Nat × List Event) :=
  let ev1 : List Event := if e.preset_exists then [] else [Event.preset_created]
  if ¬ e.preset_exists then some (1, ev1) else
  let s := config_validate_scheme e.file
  if ¬ s.1 then some (1, ev1 ++ s.2) else
  match config_validate_values e.file with
  | none => none
  | some (values_ok, ev3) =>
    if ¬ values_ok then some (1, ev1 ++ s.2 ++ ev3) else
    let inf := git_infected e.git_status
    if ¬ truthy_opt_bool inf.1 then some (1, ev1 ++ s.2 ++ ev3 ++ inf.2) else
    match config_release e.file with
    | none => none
    | some config =>
      let ev := ev1 ++ s.2 ++ ev3 ++ inf.2
      if config.enable_hook then
        match e.args with
        | .delete =>
          match git_config_remove e.remove_status true with
          | none => none
          | some evd => some (0, ev ++ evd)
        | .active =>
          some (0, ev ++ (active_identity e.local_email e.local_name e.local_url).2)
        | .passports => some (0, ev)
        | .select => select_flow e config (ev ++ [Event.git_remove])
        | .noflag =>
          if e.local_email ≠ "" ∧ e.local_name ≠ "" then
            some (0, ev ++ (active_identity e.local_email e.local_name e.local_url).2)
          else select_flow e config ev
      else some (1, ev ++ [Event.disabled])

/-! ### Helper lemmas -/

theorem dict_get_set_ne (d : Dict) (k k2 : String) (v : PyVal) (h : k2 ≠ k) :
    dict_get (dict_set d k v) k2 = dict_get d k2 := by
  induction d with
  | nil =>
    simp only [dict_set, dict_get]
    rw [if_neg (fun hh => h hh.symm)]
  | cons kv rest ih =>
    obtain ⟨k0, w⟩ := kv
    by_cases h0 : k0 = k
    · subst h0
      simp only [dict_set, if_pos rfl, dict_get]
      rw [if_neg (fun hh => h hh.symm), if_neg (fun hh => h hh.symm)]
    · simp only [dict_set, if_neg h0, dict_get]
      by_cases h2 : k0 = k2
      · rw [if_pos h2, if_pos h2]
      · rw [if_neg h2, if_neg h2, ih]

theorem store_set_fresh (ps : Store) (n : Nat) (d : Dict)
    (h : ∀ p ∈ ps, p.1 ≠ n) : store_set ps n d = ps ++ [(n, d)] := by
  induction ps with
  | nil => rfl
  | cons kv rest ih =>
    have h1 : kv.1 ≠ n := h kv (List.mem_cons_self kv rest)
    obtain ⟨k0, d0⟩ := kv
    simp only [store_set, if_neg h1, List.cons_append]
    rw [ih (fun p hp => h p (List.mem_cons_of_mem _ hp))]

theorem keys_range_ne_len (ps : Store)
    (hkeys : ps.map Prod.fst = List.range ps.length) :
    ∀ p ∈ ps, p.1 ≠ ps.length := by
  intro p hp
  have h1 : p.1 ∈ ps.map Prod.fst := List.mem_map_of_mem Prod.fst hp
  rw [hkeys, List.mem_range] at h1
  omega

theorem add_global_id_pos (ge gn : String) (ps : Store)
    (hkeys : ps.map Prod.fst = List.range ps.length)
    (hge : ge ≠ "") (hgn : gn ≠ "") :
    add_global_id ge gn ps ps =
      { target := ps ++ [(ps.length, global_id_dict ge gn)],
        events := [], ok := true } := by
  unfold add_global_id
  rw [if_pos ⟨hge, hgn⟩, store_set_fresh ps ps.length _ (keys_range_ne_len ps hkeys)]

theorem add_global_id_neg (ge gn : String) (ps : Store)
    (h : ¬ (ge ≠ "" ∧ gn ≠ "")) :
    add_global_id ge gn ps ps =
      { target := ps, events := [Event.no_global_note], ok := false } := by
  unfold add_global_id
  rw [if_neg h]

theorem gen_candidates_mem (ids : Store) (u : String) (k : Nat) (v : Dict) :
    (k, v) ∈ gen_candidates ids u ↔
      (k, v) ∈ ids ∧ dict_get v "service" = some (.str u) := by
  unfold gen_candidates
  rw [List.mem_filter]
  refine and_congr_right (fun _ => ?_)
  cases hsv : dict_get v "service" with
  | none => simp
  | some pv =>
    cases pv with
    | str s => simp
    | bool b => simp

theorem gen_candidates_empty_iff (ids : Store) (u : String) :
    gen_candidates ids u = [] ↔
      ∀ p ∈ ids, dict_get p.2 "service" ≠ some (.str u) := by
  rw [List.eq_nil_iff_forall_not_mem]
  constructor
  · intro h p hp hserv
    exact h p ((gen_candidates_mem ids u p.1 p.2).mpr ⟨hp, hserv⟩)
  · intro h p hp
    obtain ⟨k2, v2⟩ := p
    obtain ⟨h1, h2⟩ := (gen_candidates_mem ids u k2 v2).mp hp
    exact h _ h1 h2

theorem url_exists_match (ge gn : String) (ps : Store) (url : String)
    (h : gen_candidates ps (netloc url) ≠ []) :
    url_exists ge gn ps url =
      { candidates := gen_candidates ps (netloc url), git_passports := ps,
        events := [Event.matched_url url] } := by
  simp only [url_exists]
  rw [if_pos (show 1 ≤ (gen_candidates ps (netloc url)).length from List.length_pos.mpr h)]

theorem url_exists_fallback (ge gn : String) (ps : Store) (url : String)
    (h : gen_candidates ps (netloc url) = []) :
    url_exists ge gn ps url =
      { candidates := (add_global_id ge gn ps ps).target,
        git_passports := (add_global_id ge gn ps ps).target,
        events := Event.zero_match url :: (add_global_id ge gn ps ps).events } := by
  simp only [url_exists, h, List.length_nil]
  rw [if_neg (by omega)]

theorem no_url_exists_eq (ge gn : String) (ps : Store) :
    no_url_exists ge gn ps =
      { candidates := (add_global_id ge gn ps ps).target,
        git_passports := (add_global_id ge gn ps ps).target,
        events := Event.no_url :: (add_global_id ge gn ps ps).events } := rfl

theorem add_global_events_sub (ge gn : String) (ps : Store) :
    (add_global_id ge gn ps ps).events = [] ∨
      (add_global_id ge gn ps ps).events = [Event.no_global_note] := by
  unfold add_global_id
  by_cases h : ge ≠ "" ∧ gn ≠ ""
  · rw [if_pos h]; left; rfl
  · rw [if_neg h]; right; rfl

/-! ### Claim C1

The claim says the step-1 selection (`gen_candidates`) also selects every
identity whose `no_remote` flag is true.  The code compares only
`value.get("service") == netloc`; `no_remote` — although whitelisted,
type-validated and coerced with a `False` default by
`configuration.release` — is never consulted during selection, so an
identity with `no_remote = true` whose `service` does not equal the host is
not selected. -/

/-- A stored identity with `no_remote = true` (as `configuration.release`
produces it) and a `service` that is not the URL's host. -/
def nr_dict : Dict :=
  [("email", .str "c@d.e"), ("name", .str "c"), ("no_remote", .bool true)]

/-- C1, counterexample: with a store holding one identity whose `no_remote`
flag is true and whose `service` is absent, and the non-empty remote URL
`https://github.com/x/y` (host `github.com`), the step-1 selection is empty —
the `no_remote` identity is not selected, contradicting the claim. -/
theorem c1_counterexample :
    dict_get nr_dict "no_remote" = some (.bool true) ∧
    netloc "https://github.com/x/y" = "github.com" ∧
    (0, nr_dict) ∉ gen_candidates [(0, nr_dict)] (netloc "https://github.com/x/y") ∧
    gen_candidates [(0, nr_dict)] (netloc "https://github.com/x/y") = [] := by
  decide

/-- C1, amended: step-1 selection (`gen_candidates` applied to the URL's
netloc) selects exactly the stored identities whose `service` string equals
the host by exact, case-sensitive comparison; the `no_remote` flag is not
consulted (rewriting it on every entry does not change the selection); and
`service` is never interpreted as a pattern (a wildcard-looking `service`
value `.*` matches nothing but the literal string `.*`). -/
theorem c1_amended :
    (∀ (ids : Store) (url : String) (k : Nat) (v : Dict),
      (k, v) ∈ gen_candidates ids (netloc url) ↔
        (k, v) ∈ ids ∧ dict_get v "service" = some (.str (netloc url))) ∧
    (∀ (ids : Store) (u : String) (f : Nat → Bool),
      gen_candidates
          (ids.map (fun kv => (kv.1, dict_set kv.2 "no_remote" (.bool (f kv.1))))) u
        = (gen_candidates ids u).map
            (fun kv => (kv.1, dict_set kv.2 "no_remote" (.bool (f kv.1))))) ∧
    gen_candidates
        [(0, [("email", .str "w@x.y"), ("name", .str "w"),
              ("service", .str ".*"), ("no_remote", .bool true)])]
        "github.com" = [] := by
  refine ⟨fun ids url k v => gen_candidates_mem ids (netloc url) k v, ?_, by decide⟩
  intro ids u f
  induction ids with
  | nil => rfl
  | cons kv rest ih =>
    simp only [List.map_cons]
    unfold gen_candidates at *
    rw [List.filter_cons, List.filter_cons]
    have hserv : dict_get (dict_set kv.2 "no_remote" (.bool (f kv.1))) "service"
        = dict_get kv.2 "service" :=
      dict_get_set_ne kv.2 "no_remote" "service" _ (by decide)
    simp only [hserv]
    cases hm : dict_get kv.2 "service" with
    | none => simpa using ih
    | some pv =>
      cases pv with
      | str s =>
        by_cases hs : s = u
        · simp [hs, ih]
        · simp [hs, ih]
      | bool b => simpa using ih

/-! ### Claim C2 -/

/-- C2: when step-1 matching is non-empty, `url_exists` returns exactly the
matching identities — a sublist of the store, so original keys and original
declaration order — leaves the store unchanged, and appends no global
fallback entry. -/
theorem c2_host_match_authoritative (ge gn : String) (ps : Store) (url : String)
    (h : gen_candidates ps (netloc url) ≠ []) :
    url_exists ge gn ps url =
      { candidates := gen_candidates ps (netloc url), git_passports := ps,
        events := [Event.matched_url url] } ∧
    (gen_candidates ps (netloc url)).Sublist ps := by
  refine ⟨url_exists_match ge gn ps url h, ?_⟩
  unfold gen_candidates
  exact List.filter_sublist ps

/-- C2 witness: a two-identity store whose second identity matches the host
`github.com`; the candidate set is exactly that identity under its original
key 1, the store is untouched, no global entry is appended. -/
theorem c2_witness :
    gen_candidates
        [(0, [("email", .str "a@b.c"), ("name", .str "a"), ("service", .str "gitlab.com")]),
         (1, [("email", .str "d@e.f"), ("name", .str "d"), ("service", .str "github.com")])]
        (netloc "https://github.com/x/y") ≠ [] ∧
    url_exists "G" "g@x.com"
        [(0, [("email", .str "a@b.c"), ("name", .str "a"), ("service", .str "gitlab.com")]),
         (1, [("email", .str "d@e.f"), ("name", .str "d"), ("service", .str "github.com")])]
        "https://github.com/x/y" =
      { candidates :=
          [(1, [("email", .str "d@e.f"), ("name", .str "d"), ("service", .str "github.com")])],
        git_passports :=
          [(0, [("email", .str "a@b.c"), ("name", .str "a"), ("service", .str "gitlab.com")]),
           (1, [("email", .str "d@e.f"), ("name", .str "d"), ("service", .str "github.com")])],
        events := [Event.matched_url "https://github.com/x/y"] } := by
  have hne : gen_candidates
      [(0, [("email", .str "a@b.c"), ("name", .str "a"), ("service", .str "gitlab.com")]),
       (1, [("email", .str "d@e.f"), ("name", .str "d"), ("service", .str "github.com")])]
      (netloc "https://github.com/x/y") ≠ [] := by decide
  refine ⟨hne, ?_⟩
  rw [(c2_host_match_authoritative "G" "g@x.com" _ "https://github.com/x/y" hne).1]
  decide

/-! ### Claim C3

`Store`s produced by `release`/`config_release` are keyed
`dict(enumerate(...))`, i.e. their keys are `0, …, n-1` in order; the
hypothesis `ps.map Prod.fst = List.range ps.length` states exactly that. -/

/-- C3: with an empty remote URL (`no_url_exists`) or an empty step-1 match
(`url_exists`'s fallback branch), the candidate set is the full store plus —
exactly when both global fields are non-empty — one synthetic entry at key
`len(store)` carrying `flag = "global"` and no `service`; when no global
identity is discoverable nothing is added and the informational note is the
only extra output. -/
theorem c3_fallback_candidates (ge gn : String) (ps : Store) (url : String)
    (hkeys : ps.map Prod.fst = List.range ps.length) :
    (ge ≠ "" → gn ≠ "" →
      no_url_exists ge gn ps =
        { candidates := ps ++ [(ps.length, global_id_dict ge gn)],
          git_passports := ps ++ [(ps.length, global_id_dict ge gn)],
          events := [Event.no_url] } ∧
      (gen_candidates ps (netloc url) = [] →
        url_exists ge gn ps url =
          { candidates := ps ++ [(ps.length, global_id_dict ge gn)],
            git_passports := ps ++ [(ps.length, global_id_dict ge gn)],
            events := [Event.zero_match url] })) ∧
    (¬ (ge ≠ "" ∧ gn ≠ "") →
      no_url_exists ge gn ps =
        { candidates := ps, git_passports := ps,
          events := [Event.no_url, Event.no_global_note] } ∧
      (gen_candidates ps (netloc url) = [] →
        url_exists ge gn ps url =
          { candidates := ps, git_passports := ps,
            events := [Event.zero_match url, Event.no_global_note] })) ∧
    dict_get (global_id_dict ge gn) "flag" = some (.str "global") ∧
    dict_get (global_id_dict ge gn) "service" = none := by
  refine ⟨fun hge hgn => ?_, fun hneg => ?_, rfl, rfl⟩
  · rw [no_url_exists_eq, add_global_id_pos ge gn ps hkeys hge hgn]
    exact ⟨rfl, fun h0 => by
      rw [url_exists_fallback ge gn ps url h0, add_global_id_pos ge gn ps hkeys hge hgn]⟩
  · rw [no_url_exists_eq, add_global_id_neg ge gn ps hneg]
    exact ⟨rfl, fun h0 => by
      rw [url_exists_fallback ge gn ps url h0, add_global_id_neg ge gn ps hneg]⟩

/-- C3 witness: a one-identity store.  With a discoverable global identity
the synthetic entry appears at key 1; with none, the note is produced and
the store is returned unchanged. -/
theorem c3_witness :
    ([(0, [("email", PyVal.str "a@b.c"), ("name", PyVal.str "a")])].map Prod.fst
      = List.range 1) ∧
    no_url_exists "g@x.com" "G" [(0, [("email", PyVal.str "a@b.c"), ("name", PyVal.str "a")])] =
      { candidates :=
          [(0, [("email", PyVal.str "a@b.c"), ("name", PyVal.str "a")]),
           (1, global_id_dict "g@x.com" "G")],
        git_passports :=
          [(0, [("email", PyVal.str "a@b.c"), ("name", PyVal.str "a")]),
           (1, global_id_dict "g@x.com" "G")],
        events := [Event.no_url] } ∧
    no_url_exists "" "" [(0, [("email", PyVal.str "a@b.c"), ("name", PyVal.str "a")])] =
      { candidates := [(0, [("email", PyVal.str "a@b.c"), ("name", PyVal.str "a")])],
        git_passports := [(0, [("email", PyVal.str "a@b.c"), ("name", PyVal.str "a")])],
        events := [Event.no_url, Event.no_global_note] } := by
  have hkeys : ([(0, [("email", PyVal.str "a@b.c"), ("name", PyVal.str "a")])] : Store).map Prod.fst
      = List.range 1 := by decide
  refine ⟨hkeys, ?_, ?_⟩
  · exact ((c3_fallback_candidates "g@x.com" "G" _ "" hkeys).1 (by decide) (by decide)).1
  · exact ((c3_fallback_candidates "" "" _ "" hkeys).2.1 (by decide)).1

/-! ### Claim C4

The claim says candidate selection leaves `config["git_passports"]`
unchanged.  In the fallback branches `candidates` aliases the store dict and
`add_global_id` inserts the synthetic global entry into it in place, so the
store mapping itself gains that entry. -/

/-- C4, counterexample: with a one-identity store, a discoverable global
identity and no remote URL, `config["git_passports"]` after `no_url_exists`
is not the store that was loaded — the claim that selection leaves the store
unchanged is false. -/
theorem c4_counterexample :
    (no_url_exists "g@x.com" "G"
        [(0, [("email", PyVal.str "a@b.c"), ("name", PyVal.str "a")])]).git_passports
      ≠ [(0, [("email", PyVal.str "a@b.c"), ("name", PyVal.str "a")])] := by
  decide

/-- C4, amended: the host-match branch leaves the store unchanged; the
fallback branches mutate it exactly by appending the synthetic global entry
at key `len(store)` when a global identity is discoverable (the original
entries survive as a prefix, unmodified); and selection itself performs no
VCS mutation — the only git-mutating events of a run are the local
`git config` set/remove calls issued elsewhere. -/
theorem c4_store_mutation (ge gn : String) (ps : Store) (url : String)
    (hkeys : ps.map Prod.fst = List.range ps.length) :
    (gen_candidates ps (netloc url) ≠ [] →
      (url_exists ge gn ps url).git_passports = ps) ∧
    ((no_url_exists ge gn ps).git_passports = ps ∨
      (no_url_exists ge gn ps).git_passports = ps ++ [(ps.length, global_id_dict ge gn)]) ∧
    (gen_candidates ps (netloc url) = [] →
      (url_exists ge gn ps url).git_passports = ps ∨
      (url_exists ge gn ps url).git_passports = ps ++ [(ps.length, global_id_dict ge gn)]) ∧
    ps <+: (no_url_exists ge gn ps).git_passports ∧
    ((url_exists ge gn ps url).events.all (fun ev => !ev.is_git_mutation) = true) ∧
    ((no_url_exists ge gn ps).events.all (fun ev => !ev.is_git_mutation) = true) := by
  have hag : (add_global_id ge gn ps ps).target = ps ∨
      (add_global_id ge gn ps ps).target = ps ++ [(ps.length, global_id_dict ge gn)] := by
    by_cases hg : ge ≠ "" ∧ gn ≠ ""
    · right; rw [add_global_id_pos ge gn ps hkeys hg.1 hg.2]
    · left; rw [add_global_id_neg ge gn ps hg]
  refine ⟨?_, ?_, ?_, ?_, ?_, ?_⟩
  · intro h
    rw [url_exists_match ge gn ps url h]
  · rw [no_url_exists_eq]
    exact hag
  · intro h0
    rw [url_exists_fallback ge gn ps url h0]
    exact hag
  · rw [no_url_exists_eq]
    rcases hag with h | h
    · rw [h]
    · rw [h]; exact ⟨[(ps.length, global_id_dict ge gn)], rfl⟩
  · by_cases h : gen_candidates ps (netloc url) = []
    · rw [url_exists_fallback ge gn ps url h]
      rcases add_global_events_sub ge gn ps with he | he <;> simp [he, Event.is_git_mutation]
    · rw [url_exists_match ge gn ps url h]
      simp [Event.is_git_mutation]
  · rw [no_url_exists_eq]
    rcases add_global_events_sub ge gn ps with he | he <;> simp [he, Event.is_git_mutation]

/-- C4 witness for the amended statement, at the same concrete store: the
match branch leaves the store unchanged, the fallback branch appends the
global entry. -/
theorem c4_witness :
    (url_exists "g@x.com" "G"
        [(0, [("email", PyVal.str "a@b.c"), ("service", PyVal.str "github.com")])]
        "https://github.com/x/y").git_passports
      = [(0, [("email", PyVal.str "a@b.c"), ("service", PyVal.str "github.com")])] ∧
    ((no_url_exists "g@x.com" "G"
        [(0, [("email", PyVal.str "a@b.c"), ("service", PyVal.str "github.com")])]).git_passports
      = [(0, [("email", PyVal.str "a@b.c"), ("service", PyVal.str "github.com")])] ∨
     (no_url_exists "g@x.com" "G"
        [(0, [("email", PyVal.str "a@b.c"), ("service", PyVal.str "github.com")])]).git_passports
      = [(0, [("email", PyVal.str "a@b.c"), ("service", PyVal.str "github.com")])]
        ++ [(1, global_id_dict "g@x.com" "G")]) := by
  have hkeys : ([(0, [("email", PyVal.str "a@b.c"), ("service", PyVal.str "github.com")])] : Store).map Prod.fst
      = List.range 1 := by decide
  constructor
  · exact (c4_store_mutation "g@x.com" "G" _ "https://github.com/x/y" hkeys).1 (by decide)
  · exact (c4_store_mutation "g@x.com" "G" _ "https://github.com/x/y" hkeys).2.1

/-! ### Claim C5

The claim says value validation names every invalid address.  The
`gitpassport.py`/`config.py` validator (`config_validate_values`) does; the
`passport/configuration.py` validator (`validate_values`) prints the first
offending entry of its generator and returns immediately. -/

theorem filter_email_mem (file : IniFile) (l : List String)
    (h : filter_email file = some l) :
    ∀ em, em ∈ l ↔ ∃ s ∈ file, is_passport_section s.1 = true ∧
      s.2.lookup "email" = some em ∧ email_match em = false := by
  induction file generalizing l with
  | nil =>
    simp only [filter_email, Option.some_inj] at h
    subst h
    simp
  | cons sec rest ih =>
    obtain ⟨name, opts⟩ := sec
    by_cases hp : is_passport_section name = true
    · simp only [filter_email, if_pos hp] at h
      cases hlk : opts.lookup "email" with
      | none => rw [hlk] at h; exact absurd h (by simp)
      | some em0 =>
        rw [hlk] at h
        cases hrec : filter_email rest with
        | none => rw [hrec] at h; exact absurd h (by simp)
        | some l0 =>
          rw [hrec] at h
          simp only [Option.some_inj] at h
          subst h
          intro em
          by_cases hm : email_match em0 = true
          · rw [if_pos hm]
            rw [ih l0 hrec em]
            constructor
            · rintro ⟨s, hs, h1, h2, h3⟩
              exact ⟨s, List.mem_cons_of_mem _ hs, h1, h2, h3⟩
            · rintro ⟨s, hs, h1, h2, h3⟩
              rcases List.mem_cons.mp hs with heq | hmem
              · subst heq
                rw [hlk] at h2
                rw [Option.some_inj] at h2
                subst h2
                rw [hm] at h3
                cases h3
              · exact ⟨s, hmem, h1, h2, h3⟩
          · rw [if_neg hm]
            rw [List.mem_cons]
            rw [ih l0 hrec em]
            constructor
            · rintro (heq | ⟨s, hs, h1, h2, h3⟩)
              · subst heq
                exact ⟨(name, opts), List.mem_cons_self _ _, hp, hlk,
                  Bool.not_eq_true _ ▸ eq_false_of_ne_true hm⟩
              · exact ⟨s, List.mem_cons_of_mem _ hs, h1, h2, h3⟩
            · rintro ⟨s, hs, h1, h2, h3⟩
              rcases List.mem_cons.mp hs with heq | hmem
              · subst heq
                rw [hlk] at h2
                rw [Option.some_inj] at h2
                exact Or.inl h2.symm
              · exact Or.inr ⟨s, hmem, h1, h2, h3⟩
    · simp only [filter_email, if_neg hp] at h
      intro em
      rw [ih l h em]
      constructor
      · rintro ⟨s, hs, h1, h2, h3⟩
        exact ⟨s, List.mem_cons_of_mem _ hs, h1, h2, h3⟩
      · rintro ⟨s, hs, h1, h2, h3⟩
        rcases List.mem_cons.mp hs with heq | hmem
        · subst heq; exact absurd h1 hp
        · exact ⟨s, hmem, h1, h2, h3⟩

theorem filter_section_of_filter_email (file : IniFile) (l : List String)
    (h : filter_email file = some l) :
    ∃ l2, filter_section file = some l2 ∧
      ∀ em ∈ l, ("email address", em) ∈ l2 := by
  induction file generalizing l with
  | nil =>
    simp only [filter_email, Option.some_inj] at h
    subst h
    exact ⟨[], rfl, by simp⟩
  | cons sec rest ih =>
    obtain ⟨name, opts⟩ := sec
    by_cases hp : is_passport_section name = true
    · simp only [filter_email, if_pos hp] at h
      cases hlk : opts.lookup "email" with
      | none => rw [hlk] at h; exact absurd h (by simp)
      | some em0 =>
        rw [hlk] at h
        cases hrec : filter_email rest with
        | none => rw [hrec] at h; exact absurd h (by simp)
        | some l0 =>
          rw [hrec] at h
          simp only [Option.some_inj] at h
          subst h
          obtain ⟨l2, hl2, hmem⟩ := ih l0 hrec
          refine ⟨(if email_match em0 then [] else [("email address", em0)]) ++
              (match opts.lookup "no_remote" with
               | none => []
               | some v => match py_getboolean v with
                 | some _ => []
                 | none => [("no_remote", v)]) ++ l2, ?_, ?_⟩
          · simp only [filter_section, if_pos hp, hlk, hl2]
            rfl
          · intro em hem
            by_cases hm : email_match em0 = true
            · rw [if_pos hm] at hem ⊢
              simp only [List.nil_append]
              exact List.mem_append_right _ (hmem em hem)
            · rw [if_neg hm] at hem ⊢
              rcases List.mem_cons.mp hem with heq | hmem0
              · subst heq
                exact List.mem_append_left _
                  (List.mem_append_left _ (List.mem_singleton.mpr rfl))
              · exact List.mem_append_right _ (hmem em hmem0)
    · simp only [filter_email, if_neg hp] at h
      obtain ⟨l2, hl2, hmem⟩ := ih l h
      exact ⟨l2, by simp only [filter_section, if_neg hp, hl2], hmem⟩

/-- The configuration file `[general] + two passports with emails bad1,
bad2` used to exhibit C5's failure on `configuration.validate_values`. -/
def file_bad : IniFile :=
  [("general", [("enable_hook", "True"), ("sleep_duration", "0.75")]),
   ("passport 0", [("email", "bad1"), ("name", "x")]),
   ("passport 1", [("email", "bad2"), ("name", "y")])]

/-- C5, counterexample: `file_bad` holds two invalid addresses, yet
`configuration.validate_values` rejects naming only the first (`bad1`); no
produced message names `bad2`, refuting "its error output names every
invalid address found in the file". -/
theorem c5_counterexample :
    email_match "bad2" = false ∧
    ("passport 1", [("email", "bad2"), ("name", "y")]) ∈ file_bad ∧
    validate_values file_bad =
      some (false, [Event.invalid_value "email address" "bad1"]) ∧
    Event.invalid_value "email address" "bad2" ∉
      [Event.invalid_value "email address" "bad1"] := by
  decide

/-- C5, amended: on any file whose passport emails are all present and at
least one invalid, both validators reject the whole file;
`config_validate_values` (gitpassport.py, config.py) reports a collection
containing exactly the invalid addresses, while `validate_values`
(configuration.py) names only the first offending entry produced by its
generator. -/
theorem c5_first_only_reporting (file : IniFile) (l : List String)
    (hl : filter_email file = some l) (hne : l ≠ []) :
    (config_validate_values file = some (false, [Event.invalid_emails l.dedup]) ∧
      ∀ em, em ∈ l.dedup ↔ ∃ s ∈ file, is_passport_section s.1 = true ∧
        s.2.lookup "email" = some em ∧ email_match em = false) ∧
    (∃ p l2, filter_section file = some (p :: l2) ∧
      validate_values file = some (false, [Event.invalid_value p.1 p.2])) := by
  constructor
  · constructor
    · unfold config_validate_values
      rw [hl]
      simp only [ne_eq, List.dedup_eq_nil]
      rw [if_pos hne]
    · intro em
      rw [List.mem_dedup]
      exact filter_email_mem file l hl em
  · obtain ⟨l2, hl2, hmem⟩ := filter_section_of_filter_email file l hl
    obtain ⟨em0, hem0⟩ := List.exists_mem_of_ne_nil l hne
    have hl2ne : l2 ≠ [] := by
      intro hnil
      rw [hnil] at hmem
      exact absurd (hmem em0 hem0) (List.not_mem_nil _)
    obtain ⟨p, l2t, hcons⟩ := List.exists_cons_of_ne_nil hl2ne
    subst hcons
    refine ⟨p, l2t, hl2, ?_⟩
    unfold validate_values
    rw [hl2]

/-- C5 witness: on `file_bad`, `config_validate_values` rejects listing both
`bad1` and `bad2`. -/
theorem c5_witness :
    filter_email file_bad = some ["bad1", "bad2"] ∧
    (["bad1", "bad2"] : List String) ≠ [] ∧
    config_validate_values file_bad =
      some (false, [Event.invalid_emails ["bad1", "bad2"]]) := by
  refine ⟨by decide, by decide, ?_⟩
  have h := ((c5_first_only_reporting file_bad ["bad1", "bad2"]
    (by decide) (by decide)).1).1
  have hd : (["bad1", "bad2"] : List String).dedup = ["bad1", "bad2"] := by decide
  rw [hd] at h
  exact h

/-! ### Claim C6 -/

theorem release_passports (file : IniFile) (cfg : Config)
    (h : release file = some cfg) :
    ∃ ds, passports_conf file = some ds ∧ cfg.git_passports = ds.enum := by
  unfold release at h
  cases h1 : sec_get file "general" "enable_hook" with
  | none => simp only [h1] at h; cases h
  | some v =>
    simp only [h1] at h
    cases h2 : py_getboolean v with
    | none => simp only [h2] at h; cases h
    | some b =>
      simp only [h2] at h
      cases h3 : sec_get file "general" "sleep_duration" with
      | none => simp only [h3] at h; cases h
      | some w =>
        simp only [h3] at h
        by_cases h4 : py_float_ok w = true
        · rw [if_pos h4] at h
          cases h5 : passports_conf file with
          | none => simp only [h5, Option.map_none'] at h; cases h
          | some ds =>
            rw [h5, Option.map_some'] at h
            refine ⟨ds, rfl, ?_⟩
            rw [← Option.some.inj h]
        · rw [if_neg h4] at h; cases h

theorem passports_conf_mem (file : IniFile) :
    ∀ ds : List Dict, passports_conf file = some ds →
    ∀ (name : String) (opts : List (String × String)),
      (name, opts) ∈ file → is_passport_section name = true →
    ∀ d : Dict, passport_no_remote opts = some d → d ∈ ds := by
  induction file with
  | nil =>
    intro ds _ name opts hmem
    cases hmem
  | cons sec rest ih =>
    intro ds h name opts hmem hp d hd
    obtain ⟨n1, o1⟩ := sec
    rcases List.mem_cons.mp hmem with heq | hmem2
    · injection heq with e1 e2
      subst e1
      subst e2
      simp only [passports_conf, if_pos hp, hd] at h
      cases hrec : passports_conf rest with
      | none => simp only [hrec, Option.map_none'] at h; cases h
      | some l0 =>
        rw [hrec, Option.map_some'] at h
        rw [← Option.some.inj h]
        exact List.mem_cons_self d l0
    · by_cases hp1 : is_passport_section n1 = true
      · simp only [passports_conf, if_pos hp1] at h
        cases hpn : passport_no_remote o1 with
        | none => simp only [hpn] at h; cases h
        | some d1 =>
          simp only [hpn] at h
          cases hrec : passports_conf rest with
          | none => simp only [hrec, Option.map_none'] at h; cases h
          | some l0 =>
            rw [hrec, Option.map_some'] at h
            rw [← Option.some.inj h]
            exact List.mem_cons_of_mem d1 (ih l0 hrec name opts hmem2 hp d hd)
      · simp only [passports_conf, if_neg hp1] at h
        exact ih ds h name opts hmem2 hp d hd

/-- Two configuration files are related when their sections agree pointwise
on options, and each pair of section names is either identical or consists
of two (possibly different) `passport N` headers. -/
def renamed (s t : String × List (String × String)) : Prop :=
  s.2 = t.2 ∧
    ((is_passport_section s.1 = true ∧ is_passport_section t.1 = true) ∨ s.1 = t.1)

theorem passport_ne_general (n : String) (h : is_passport_section n = true) :
    n ≠ "general" := by
  intro heq
  rw [heq] at h
  exact absurd h (by decide)

theorem lookup_general_congr (file file2 : IniFile)
    (h : List.Forall₂ renamed file file2) :
    file.lookup "general" = file2.lookup "general" := by
  induction h with
  | nil => rfl
  | @cons a b l1 l2 hr _ ih =>
    obtain ⟨a1, a2⟩ := a
    obtain ⟨b1, b2⟩ := b
    obtain ⟨hopts, hname⟩ := hr
    rcases hname with ⟨hp1, hp2⟩ | heq
    · have h1 : (("general" : String) == a1) = false :=
        beq_eq_false_iff_ne.mpr (fun hh => passport_ne_general a1 hp1 hh.symm)
      have h2 : (("general" : String) == b1) = false :=
        beq_eq_false_iff_ne.mpr (fun hh => passport_ne_general b1 hp2 hh.symm)
      simp only [List.lookup, h1, h2]
      exact ih
    · cases heq
      cases hopts
      simp only [List.lookup]
      cases hb : (("general" : String) == a1)
      · simp only [ih]
      · rfl

theorem passports_conf_congr (file file2 : IniFile)
    (h : List.Forall₂ renamed file file2) :
    passports_conf file = passports_conf file2 := by
  induction h with
  | nil => rfl
  | @cons a b l1 l2 hr _ ih =>
    obtain ⟨a1, a2⟩ := a
    obtain ⟨b1, b2⟩ := b
    obtain ⟨hopts, hname⟩ := hr
    have hflag : is_passport_section a1 = is_passport_section b1 := by
      rcases hname with ⟨hp1, hp2⟩ | heq
      · exact hp1.trans hp2.symm
      · exact congrArg is_passport_section heq
    cases hopts
    simp only [passports_conf]
    rw [hflag, ih]

theorem sec_get_general_congr (file file2 : IniFile)
    (h : List.Forall₂ renamed file file2) (key : String) :
    sec_get file "general" key = sec_get file2 "general" key := by
  unfold sec_get
  rw [lookup_general_congr file file2 h]

theorem release_congr (file file2 : IniFile)
    (h : List.Forall₂ renamed file file2) :
    release file = release file2 := by
  unfold release
  rw [sec_get_general_congr file file2 h "enable_hook",
    sec_get_general_congr file file2 h "sleep_duration",
    passports_conf_congr file file2 h]

/-- C6: a successful `release` keys the identities consecutively
`0, 1, 2, …` in declaration order (`dict(enumerate(...))`); the result is
exactly the coerced passport sections in file order; an identity whose
section has no `no_remote` option carries `no_remote = false`; and the
integers written in the `passport N` headers are irrelevant — renaming them
(pointwise, keeping the options) yields the same released configuration. -/
theorem c6_release_declaration_order (file : IniFile) (cfg : Config)
    (h : release file = some cfg) :
    (cfg.git_passports.map Prod.fst = List.range cfg.git_passports.length) ∧
    (∀ ds, passports_conf file = some ds → cfg.git_passports = ds.enum) ∧
    (∀ (name : String) (opts : List (String × String)),
      (name, opts) ∈ file → is_passport_section name = true →
      opts.lookup "no_remote" = none →
      dict_set (to_dict opts) "no_remote" (PyVal.bool false)
        ∈ cfg.git_passports.map Prod.snd) ∧
    (∀ file2, List.Forall₂ renamed file file2 → release file2 = some cfg) := by
  obtain ⟨ds, hds, hgit⟩ := release_passports file cfg h
  refine ⟨?_, ?_, ?_, ?_⟩
  · rw [hgit, List.enum_map_fst, List.enum_length]
  · intro ds2 hds2
    rw [← Option.some.inj (hds.symm.trans hds2)]
    exact hgit
  · intro name opts hmem hp hnr
    have hd : passport_no_remote opts
        = some (dict_set (to_dict opts) "no_remote" (PyVal.bool false)) := by
      simp only [passport_no_remote, hnr]
    rw [hgit, List.enum_map_snd]
    exact passports_conf_mem file ds hds name opts hmem hp _ hd
  · intro file2 hren
    rw [← release_congr file file2 hren]
    exact h

/-- A valid file whose single passport section is headed `passport 7`. -/
def file6 : IniFile :=
  [("general", [("enable_hook", "True"), ("sleep_duration", "0.75")]),
   ("passport 7", [("email", "a@b.c"), ("name", "A"), ("service", "github.com")])]

/-- `file6` with the passport header renamed to `passport 3`. -/
def file6b : IniFile :=
  [("general", [("enable_hook", "True"), ("sleep_duration", "0.75")]),
   ("passport 3", [("email", "a@b.c"), ("name", "A"), ("service", "github.com")])]

/-- The configuration `release` produces for `file6` (and `file6b`): the
identity is keyed 0, not 7, and carries the defaulted `no_remote = false`. -/
def cfg6 : Config :=
  { enable_hook := true,
    git_passports :=
      [(0, [("email", .str "a@b.c"), ("name", .str "A"),
            ("service", .str "github.com"), ("no_remote", .bool false)])] }

/-- C6 witness: loading `file6` keys its `passport 7` identity at 0 with
`no_remote = false`, and renaming the header to `passport 3` releases the
identical configuration. -/
theorem c6_witness :
    release file6 = some cfg6 ∧
    cfg6.git_passports.map Prod.fst = List.range cfg6.git_passports.length ∧
    release file6b = some cfg6 := by
  have h : release file6 = some cfg6 := by decide
  have hren : List.Forall₂ renamed file6 file6b :=
    List.Forall₂.cons ⟨rfl, Or.inr rfl⟩
      (List.Forall₂.cons ⟨rfl, Or.inl ⟨by decide, by decide⟩⟩ List.Forall₂.nil)
  exact ⟨h, (c6_release_declaration_order file6 cfg6 h).1,
    (c6_release_declaration_order file6 cfg6 h).2.2.2 file6b hren⟩

/-! ### Claim C7 -/

/-- C7: the chooser returns the first input line that parses as a Python int
belonging to the pool; a literal `q` or `quit` yields quit immediately,
consuming nothing further; every other line (non-int, or int outside the
pool) is silently skipped and the loop continues; and on inputs
`"x", "99", "2"` against keys `{0,1,2}` it re-prompts twice and returns 2. -/
theorem c7_get_input (pool : List Int) (rest : List String) (s : String) :
    (∀ n : Int, py_int s = some n → n ∈ pool →
      get_input pool (s :: rest) = some (some n)) ∧
    get_input pool ("q" :: rest) = some none ∧
    get_input pool ("quit" :: rest) = some none ∧
    (∀ n : Int, py_int s = some n → n ∉ pool →
      get_input pool (s :: rest) = get_input pool rest) ∧
    (py_int s = none → s ≠ "q" → s ≠ "quit" →
      get_input pool (s :: rest) = get_input pool rest) ∧
    get_input [0, 1, 2] ["x", "99", "2"] = some (some 2) := by
  refine ⟨?_, ?_, ?_, ?_, ?_, by decide⟩
  · intro n hn hmem
    simp only [get_input, hn]
    rw [if_pos hmem]
  · have hq : py_int "q" = none := by decide
    simp [get_input, hq]
  · have hq : py_int "quit" = none := by decide
    simp [get_input, hq]
  · intro n hn hmem
    simp only [get_input, hn]
    rw [if_neg hmem]
  · intro h1 h2 h3
    simp only [get_input, h1]
    rw [if_neg]
    rintro (h | h)
    · exact h2 h
    · exact h3 h

/-- C7 witness: `7` parses but is not a key, so the line is skipped; a `q`
returns quit without consuming the rest. -/
theorem c7_witness :
    py_int "7" = some 7 ∧ (7 : Int) ∉ ([0, 1, 2] : List Int) ∧
    get_input [0, 1, 2] ["7"] = get_input [0, 1, 2] [] ∧
    get_input [0, 1, 2] ["q", "3"] = some none := by
  refine ⟨by decide, by decide, ?_, ?_⟩
  · exact (c7_get_input [0, 1, 2] [] "7").2.2.2.1 7 (by decide) (by decide)
  · exact (c7_get_input [0, 1, 2] ["3"] "x").2.1

/-! ### Claims C8-C10: the main flow -/

theorem url_exists_events (ge gn : String) (ps : Store) (url : String) :
    (url_exists ge gn ps url).events = [Event.matched_url url] ∨
    (url_exists ge gn ps url).events = [Event.zero_match url] ∨
    (url_exists ge gn ps url).events = [Event.zero_match url, Event.no_global_note] := by
  by_cases h : gen_candidates ps (netloc url) = []
  · rw [url_exists_fallback ge gn ps url h]
    rcases add_global_events_sub ge gn ps with he | he
    · right; left; simp [he]
    · right; right; simp [he]
  · left
    rw [url_exists_match ge gn ps url h]

theorem no_url_exists_events (ge gn : String) (ps : Store) :
    (no_url_exists ge gn ps).events = [Event.no_url] ∨
    (no_url_exists ge gn ps).events = [Event.no_url, Event.no_global_note] := by
  rw [no_url_exists_eq]
  rcases add_global_events_sub ge gn ps with he | he
  · left; simp [he]
  · right; simp [he]

theorem flow_sel_events_shape (e : MainIn) (cfg : Config) :
    ∀ ev ∈ (flow_sel e cfg).events,
      ev = Event.matched_url e.local_url ∨ ev = Event.zero_match e.local_url ∨
      ev = Event.no_url ∨ ev = Event.no_global_note := by
  intro ev hev
  unfold flow_sel at hev
  by_cases hu : e.local_url ≠ ""
  · rw [if_pos hu] at hev
    rcases url_exists_events e.global_email e.global_name cfg.git_passports
        e.local_url with h | h | h <;> rw [h] at hev <;> simp at hev <;> tauto
  · rw [if_neg hu] at hev
    rcases no_url_exists_events e.global_email e.global_name cfg.git_passports
        with h | h <;> rw [h] at hev <;> simp at hev <;> tauto

theorem flow_sel_no_git (e : MainIn) (cfg : Config) :
    ∀ ev ∈ (flow_sel e cfg).events, ev.is_git_mutation = false := by
  intro ev hev
  rcases flow_sel_events_shape e cfg ev hev with h | h | h | h <;> subst h <;> rfl

theorem select_flow_quit (e : MainIn) (cfg : Config) (ev : List Event)
    (hquit : get_input (keys_int (flow_sel e cfg).candidates) e.inputs = some none) :
    select_flow e cfg ev = some (0, ev ++ (flow_sel e cfg).events) := by
  simp only [select_flow]
  rw [hquit]

/-- C8: on every run that reaches the selection dialog (default flow with no
local identity set, or `--select`), a quit answer ends the run with exit
code 0 and no `git config` write of `user.name` or `user.email`; in the
default flow not even the removal call is issued. -/
theorem c8_quit_no_mutation (e : MainIn) (cfg : Config)
    (h1 : e.preset_exists = true)
    (h2 : config_validate_scheme e.file = (true, []))
    (h3 : config_validate_values e.file = some (true, []))
    (h4 : e.git_status = 0)
    (h5 : config_release e.file = some cfg)
    (h6 : cfg.enable_hook = true)
    (h7 : e.args = Args.noflag ∨ e.args = Args.select)
    (h8 : ¬ (e.local_email ≠ "" ∧ e.local_name ≠ ""))
    (hquit : get_input (keys_int (flow_sel e cfg).candidates) e.inputs = some none) :
    ∃ evs, main_run e = some (0, evs) ∧
      (∀ p v, Event.git_set p v ∉ evs) ∧
      (e.args = Args.noflag → Event.git_remove ∉ evs) := by
  have hset : ∀ p v, Event.git_set p v ∉ (flow_sel e cfg).events := by
    intro p v hmem
    have := flow_sel_no_git e cfg _ hmem
    simp [Event.is_git_mutation] at this
  have hrem : Event.git_remove ∉ (flow_sel e cfg).events := by
    intro hmem
    have := flow_sel_no_git e cfg _ hmem
    simp [Event.is_git_mutation] at this
  rcases h7 with h7 | h7
  · refine ⟨(flow_sel e cfg).events, ?_, hset, fun _ => hrem⟩
    simp only [main_run, h1, h2, h3, h4, h5, h6, h7, git_infected,
      truthy_opt_bool, if_true, if_neg h8, not_true, if_false, List.nil_append,
      List.append_nil]
    have := select_flow_quit e cfg [] hquit
    simp only [List.nil_append] at this
    simpa using this
  · refine ⟨Event.git_remove :: (flow_sel e cfg).events, ?_, ?_, ?_⟩
    · simp only [main_run, h1, h2, h3, h4, h5, h6, h7, git_infected,
        truthy_opt_bool, if_true, not_true, if_false, List.nil_append,
        List.append_nil]
      have := select_flow_quit e cfg [Event.git_remove] hquit
      simpa using this
    · intro p v hmem
      rcases List.mem_cons.mp hmem with h | h
      · cases h
      · exact hset p v h
    · intro hn
      rw [h7] at hn
      cases hn

/-- The default-flow environment used in witnesses: valid file, inside a
repository, no flags, no local identity, no global identity, quit input. -/
def e8 : MainIn :=
  { preset_exists := true, file := file6, git_status := 0, remove_status := 0,
    local_email := "", local_name := "", local_url := "", global_email := "",
    global_name := "", args := Args.noflag, inputs := ["q"] }

/-- The configuration `config_release` (gitpassport.py) produces for
`file6`: no `no_remote` coercion in this variant. -/
def cfg8 : Config :=
  { enable_hook := true,
    git_passports :=
      [(0, [("email", .str "a@b.c"), ("name", .str "A"),
            ("service", .str "github.com")])] }

/-- C8 witness: quitting the default flow exits 0 with no git mutation. -/
theorem c8_witness :
    ∃ evs, main_run e8 = some (0, evs) ∧
      (∀ p v, Event.git_set p v ∉ evs) ∧
      (e8.args = Args.noflag → Event.git_remove ∉ evs) :=
  c8_quit_no_mutation e8 cfg8 (by decide) (by decide) (by decide) (by decide)
    (by decide) (by decide) (Or.inl (by decide)) (by decide) (by decide)

/-! ### Claim C9 -/

/-- The environment of a successful run: `e8` with a discoverable global
identity and the answer `0`, so that the passport at key 0 is applied. -/
def e9s : MainIn :=
  { e8 with global_email := "G", global_name := "G", inputs := ["0"] }

/-- `e8` outside a git repository (`rev-parse` exit status 128). -/
def e9r : MainIn :=
  { e8 with git_status := 128 }

/-- A valid configuration file with the hook disabled. -/
def file_dis : IniFile :=
  [("general", [("enable_hook", "False"), ("sleep_duration", "0.75")])]

/-- `e8` with the hook disabled in the settings. -/
def e9d : MainIn :=
  { e8 with file := file_dis }

/-- What `config_release` yields for `file_dis`. -/
def cfg9d : Config := { enable_hook := false, git_passports := [] }

/-- C9: whenever the file checks pass and the hook is disabled, the run
prints the disabled notice and exits 1; whenever the checks pass and the
directory is not a repository (status 128), the run prints the notice and
exits 1; a successful selection exits 0 (setting both fields), and a user
quit exits 0 without error. -/
theorem c9_exit_codes (e : MainIn) (cfg : Config) :
    (e.preset_exists = true → config_validate_scheme e.file = (true, []) →
      config_validate_values e.file = some (true, []) → e.git_status = 0 →
      config_release e.file = some cfg → cfg.enable_hook = false →
      main_run e = some (1, [Event.disabled])) ∧
    (e.preset_exists = true → config_validate_scheme e.file = (true, []) →
      config_validate_values e.file = some (true, []) → e.git_status = 128 →
      main_run e = some (1, [Event.not_repo])) ∧
    main_run e9s = some (0, [Event.no_url, Event.git_set "email" "a@b.c",
      Event.git_set "name" "A"]) ∧
    main_run e8 = some (0, [Event.no_url, Event.no_global_note]) := by
  refine ⟨?_, ?_, by decide, by decide⟩
  · intro h1 h2 h3 h4 h5 h6
    simp [main_run, h1, h2, h3, h4, h5, h6, git_infected, truthy_opt_bool]
  · intro h1 h2 h3 h4
    simp [main_run, h1, h2, h3, h4, git_infected, truthy_opt_bool]

/-- C9 witness: concrete disabled-hook and not-a-repository runs exit 1
with the respective notices. -/
theorem c9_witness :
    main_run e9d = some (1, [Event.disabled]) ∧
    main_run e9r = some (1, [Event.not_repo]) := by
  constructor
  · exact (c9_exit_codes e9d cfg9d).1 (by decide) (by decide) (by decide)
      (by decide) (by decide) (by decide)
  · exact (c9_exit_codes e9r cfg9d).2.1 (by decide) (by decide) (by decide)
      (by decide)

/-! ### Claim C10 -/

theorem active_identity_one_set (em nm url : String)
    (h : (em ≠ "" ∧ nm = "") ∨ (em = "" ∧ nm ≠ "")) :
    active_identity em nm url = (false, [Event.no_passport]) := by
  simp only [active_identity]
  rw [if_neg]
  rcases h with ⟨h1, h2⟩ | ⟨h1, h2⟩
  · exact fun hc => hc.2 h2
  · exact fun hc => hc.1 h1

/-- C10: an identity with exactly one of email/name set does not count as
set: `active_identity` reports "No passport set." and returns False;
`--active` exits 0 printing only that message; and the default flow skips
the active-passport display and proceeds to candidate selection. -/
theorem c10_partial_identity (e : MainIn) (cfg : Config) (em nm url : String) :
    (((em ≠ "" ∧ nm = "") ∨ (em = "" ∧ nm ≠ "")) →
      active_identity em nm url = (false, [Event.no_passport])) ∧
    (e.preset_exists = true → config_validate_scheme e.file = (true, []) →
      config_validate_values e.file = some (true, []) → e.git_status = 0 →
      config_release e.file = some cfg → cfg.enable_hook = true →
      ((e.local_email ≠ "" ∧ e.local_name = "") ∨
        (e.local_email = "" ∧ e.local_name ≠ "")) →
      (e.args = Args.active → main_run e = some (0, [Event.no_passport])) ∧
      (e.args = Args.noflag → e.local_url = "" →
        get_input (keys_int (flow_sel e cfg).candidates) e.inputs = some none →
        ∃ evs, main_run e = some (0, evs) ∧ Event.no_url ∈ evs ∧
          (∀ n2 e2 u2, Event.active_passport n2 e2 u2 ∉ evs) ∧
          Event.no_passport ∉ evs)) := by
  refine ⟨fun h => active_identity_one_set em nm url h, ?_⟩
  intro h1 h2 h3 h4 h5 h6 hone
  have hnb : ¬ (e.local_email ≠ "" ∧ e.local_name ≠ "") := by
    rcases hone with ⟨ha, hb⟩ | ⟨ha, hb⟩
    · exact fun hc => hc.2 hb
    · exact fun hc => hc.1 ha
  constructor
  · intro h7
    simp only [main_run, h1, h2, h3, h4, h5, h6, h7, git_infected,
      truthy_opt_bool, if_true, not_true, if_false, List.nil_append,
      List.append_nil]
    rw [active_identity_one_set _ _ _ hone]
  · intro h7 hu hquit
    refine ⟨(flow_sel e cfg).events, ?_, ?_, ?_, ?_⟩
    · simp only [main_run, h1, h2, h3, h4, h5, h6, h7, git_infected,
        truthy_opt_bool, if_true, if_neg hnb, not_true, if_false,
        List.nil_append, List.append_nil]
      have := select_flow_quit e cfg [] hquit
      simpa using this
    · unfold flow_sel
      rw [if_neg (fun hc => hc hu)]
      rw [no_url_exists_eq]
      exact List.mem_cons_self _ _
    · intro n2 e2 u2 hmem
      rcases flow_sel_events_shape e cfg _ hmem with h | h | h | h <;> cases h
    · intro hmem
      rcases flow_sel_events_shape e cfg _ hmem with h | h | h | h <;> cases h

/-- `e8` with only the local email set, under `--active`. -/
def e10a : MainIn :=
  { e8 with local_email := "E", args := Args.active }

/-- `e8` with only the local email set, default flow. -/
def e10n : MainIn :=
  { e8 with local_email := "E" }

/-- C10 witness: with only `user.email` set, `--active` prints "No passport
set." and exits 0, and the default flow proceeds to selection (the
remote-unset listing) without displaying an active passport. -/
theorem c10_witness :
    main_run e10a = some (0, [Event.no_passport]) ∧
    (∃ evs, main_run e10n = some (0, evs) ∧ Event.no_url ∈ evs ∧
      (∀ n2 e2 u2, Event.active_passport n2 e2 u2 ∉ evs) ∧
      Event.no_passport ∉ evs) := by
  constructor
  · exact ((c10_partial_identity e10a cfg8 "" "" "").2 (by decide) (by decide)
      (by decide) (by decide) (by decide) (by decide)
      (Or.inl (by decide))).1 (by decide)
  · exact ((c10_partial_identity e10n cfg8 "" "" "").2 (by decide) (by decide)
      (by decide) (by decide) (by decide) (by decide)
      (Or.inl (by decide))).2 (by decide) (by decide) (by decide)

end GitPassport
